import Mathlib

/-!
# Verification of the `TransformerTrainer` training engine

A shallow embedding of `src/Trainer.py` (class `TransformerTrainer`).

Modelling conventions:
* Python floats are modelled as `ℚ`; the value `float('inf')` used to
  initialise `best_val_loss` is modelled as `⊤` in `WithTop ℚ`.
* The model's and the optimizer's parameters are opaque to the trainer
  (they are produced by the external ML framework); they are modelled as
  `List ℚ` parameter vectors that the trainer only stores and copies.
* The per-epoch losses returned by `train_epoch` / `validate` depend on
  the model and the data, both external; the `train` loop is therefore
  parameterised by an oracle `losses : ℕ → ℚ × ℚ` giving each epoch's
  (train loss, validation loss) pair, exactly the two values the loop
  body consumes at lines 214 and 217 of `Trainer.py`.
* A `torch.save` call is recorded by appending the saved checkpoint to a
  `written` log, which models the sequence of file writes in order.
* Python's `ZeroDivisionError` (int `0 / 0` in `total_loss / num_batches`)
  is modelled by `Option`: `none` is the raised exception.
* Side effects that carry no trainer state (printing, logging, tqdm,
  the LR scheduler's internal state, tensorboard) are not modelled; none
  of the claims mentions them.
-/

/-- A checkpoint record, the dictionary passed to `torch.save` at
`Trainer.py` lines 246–252. -/
structure Checkpoint where
  epoch : ℕ
  model_state_dict : List ℚ
  optimizer_state_dict : List ℚ
  train_loss : ℚ
  val_loss : ℚ
  deriving Repr, DecidableEq

/-- The trainer's mutable state during a `train()` call: the persistent
fields set up in `__init__` (lines 75–77: `train_losses`, `val_losses`,
`best_val_loss`), the model and optimizer parameter vectors, the local
variable `patience_counter` (line 206), and the log of checkpoints
written by `torch.save` (line 246). -/
structure LoopState where
  model : List ℚ
  optimizer : List ℚ
  train_losses : List ℚ
  val_losses : List ℚ
  best_val_loss : WithTop ℚ
  patience_counter : ℕ
  written : List Checkpoint
  deriving Repr, DecidableEq

/-- The state of a freshly constructed trainer (`__init__` lines 75–77):
empty histories, `best_val_loss = float('inf')`, no checkpoint written,
`patience_counter` as reset at the start of `train()` (line 206). -/
def initState (model optimizer : List ℚ) : LoopState :=
  { model := model
    optimizer := optimizer
    train_losses := []
    val_losses := []
    best_val_loss := ⊤
    patience_counter := 0
    written := [] }

/-- One epoch of `train_epoch` / `validate` aggregation (lines 133–168 /
170–192): `total_loss` accumulates the per-batch `loss.item()` values by
a left fold from `0`, `num_batches` counts the batches, and the function
returns `total_loss / num_batches`.  When the loader yields no batch the
division is Python's `0 / 0` on ints, a `ZeroDivisionError`, modelled as
`none`. -/
def train_epoch (batchLosses : List ℚ) : Option ℚ :=
  let total_loss := batchLosses.foldl (· + ·) 0
  let num_batches := batchLosses.length
  if num_batches = 0 then none else some (total_loss / num_batches)

/-- `validate` (lines 170–192) aggregates exactly as `train_epoch` does:
sum of per-batch `loss.item()` divided by the batch count, with the same
unguarded division when there is no batch. -/
def validate (batchLosses : List ℚ) : Option ℚ :=
  let total_loss := batchLosses.foldl (· + ·) 0
  let num_batches := batchLosses.length
  if num_batches = 0 then none else some (total_loss / num_batches)

/-- The arithmetic mean of a list of per-batch losses, the reference
value the spec compares the engine's epoch loss against. -/
def arithmeticMean (l : List ℚ) : ℚ :=
  l.sum / l.length

/-- The body of one iteration of the `for epoch in range(...)` loop in
`train()` (lines 208–259): run the epoch and the validation (their
results supplied by the `losses` oracle), append both losses to the
histories (lines 220–221), then either save a checkpoint, update
`best_val_loss` and reset `patience_counter` (lines 244–257) when
`val_loss < best_val_loss`, or increment `patience_counter` (line 259). -/
def trainStep (losses : ℕ → ℚ × ℚ) (epoch : ℕ) (s : LoopState) : LoopState :=
  let train_loss := (losses epoch).1
  let val_loss := (losses epoch).2
  let s :=
    { s with
      train_losses := s.train_losses ++ [train_loss]
      val_losses := s.val_losses ++ [val_loss] }
  if (val_loss : WithTop ℚ) < s.best_val_loss then
    { s with
      best_val_loss := (val_loss : WithTop ℚ)
      written := s.written ++
        [{ epoch := epoch
           model_state_dict := s.model
           optimizer_state_dict := s.optimizer
           train_loss := train_loss
           val_loss := val_loss }]
      patience_counter := 0 }
  else
    { s with patience_counter := s.patience_counter + 1 }

/-- The `for` loop of `train()` over the remaining epoch indices,
including the early-stopping `break` at lines 262–267: after each epoch
the loop exits as soon as `patience_counter >= early_stopping_patience`. -/
def trainLoop (losses : ℕ → ℚ × ℚ) (patience : ℕ) :
    List ℕ → LoopState → LoopState
  | [], s => s
  | e :: es, s =>
    let s' := trainStep losses e s
    if patience ≤ s'.patience_counter then s'
    else trainLoop losses patience es s'

/-- `train(num_epochs, ..., early_stopping_patience, start_epoch)`
(lines 194–273): iterate the loop body over
`range(start_epoch, num_epochs)` and return
`(self.train_losses, self.val_losses)` (line 273), here together with
the final state. -/
def train (losses : ℕ → ℚ × ℚ) (num_epochs : ℕ) (patience : ℕ)
    (start_epoch : ℕ) (s : LoopState) : LoopState × List ℚ × List ℚ :=
  let s' := trainLoop losses patience
    (List.range' start_epoch (num_epochs - start_epoch)) s
  (s', s'.train_losses, s'.val_losses)

/-- `sMAPE` (lines 275–279): `0` when both arguments are `0`, otherwise
`2.0 * |y_pred - y_true| / (|y_pred| + |y_true|) * 100`. -/
def sMAPE (y_true y_pred : ℚ) : ℚ :=
  if y_true = 0 ∧ y_pred = 0 then 0
  else 2 * |y_pred - y_true| / (|y_pred| + |y_true|) * 100

/-- The per-sample percentage error of
`plot_error_percentage_summary` (line 465):
`(pred - actual) / (actual + 1e-8) * 100`.  NumPy float division never
raises, so the computation is a total function. -/
def error_percentage (actual pred : ℚ) : ℚ :=
  (pred - actual) / (actual + 1 / 100000000) * 100

/-- The external checkpoint files, as a map from path to the record the
file holds (`none` when `os.path.exists` is false). -/
def FileSystem : Type := String → Option Checkpoint

/-- `load_model(path)` (lines 562–572): if the file exists, restore the
model and the optimizer parameters in place and return the full record;
otherwise print a message, mutate nothing and return `None`. -/
def load_model (s : LoopState) (fs : FileSystem) (path : String) :
    LoopState × Option Checkpoint :=
  match fs path with
  | some checkpoint =>
    ({ s with
        model := checkpoint.model_state_dict
        optimizer := checkpoint.optimizer_state_dict },
     some checkpoint)
  | none => (s, none)

/-- The observable outcome of `plot_training_history` (lines 348–375):
either the early-return branch that only prints a warning, or a plot
written to the fixed filename. -/
inductive PlotOutcome where
  | warnedNoHistory : PlotOutcome
  | savedPlot : String → PlotOutcome
  deriving Repr, DecidableEq

/-- `plot_training_history` (lines 348–375): with an empty train-loss
history it prints a warning and returns (lines 350–352); otherwise it
renders the two panels and saves `training_history.png` (line 373). -/
def plot_training_history (s : LoopState) : PlotOutcome :=
  if s.train_losses = [] then PlotOutcome.warnedNoHistory
  else PlotOutcome.savedPlot "training_history.png"

/-- Modelled from the spec (§4.4, steps 3–4): the number of epochs the
training state machine runs on a given validation-loss sequence, with
best-so-far and the non-improvement counter threaded through.  On each
epoch the counter resets to 0 on strict improvement and increments
otherwise, and the machine halts right after the epoch at which the
counter reaches the patience. -/
def specEpochsRun (patience : ℕ) :
    List ℚ → WithTop ℚ → ℕ → ℕ
  | [], _, _ => 0
  | v :: vs, best, counter =>
    let counter' := if (v : WithTop ℚ) < best then 0 else counter + 1
    let best' := if (v : WithTop ℚ) < best then (v : WithTop ℚ) else best
    if patience ≤ counter' then 1
    else 1 + specEpochsRun patience vs best' counter'

/-! ## Claim theorems -/

/-- **C4.** `sMAPE` returns `0` when both arguments are `0`; on every
other pair it returns `200·|pred − actual| / (|pred| + |actual|)`, a
value in `[0, 200]`. -/
theorem sMAPE_zero_and_bounded :
    sMAPE 0 0 = 0 ∧
    ∀ y_true y_pred : ℚ, ¬(y_true = 0 ∧ y_pred = 0) →
      sMAPE y_true y_pred = 200 * |y_pred - y_true| / (|y_pred| + |y_true|) ∧
      0 ≤ sMAPE y_true y_pred ∧ sMAPE y_true y_pred ≤ 200 := by
  constructor
  · simp [sMAPE]
  · intro a p h
    have hden : 0 < |p| + |a| := by
      rcases not_and_or.mp h with ha | hp
      · have : 0 < |a| := abs_pos.mpr ha
        have : 0 ≤ |p| := abs_nonneg p
        linarith
      · have : 0 < |p| := abs_pos.mpr hp
        have : 0 ≤ |a| := abs_nonneg a
        linarith
    have hnum : 0 ≤ |p - a| := abs_nonneg _
    have hle : |p - a| ≤ |p| + |a| := abs_sub _ _
    unfold sMAPE
    rw [if_neg h]
    refine ⟨by ring, ?_, ?_⟩
    · positivity
    · rw [div_mul_eq_mul_div, div_le_iff₀ hden]
      nlinarith

/-- **C4 witness.** The bound at the concrete pair `(1, 3)`. -/
theorem sMAPE_zero_and_bounded_witness :
    sMAPE 1 3 = 200 * |(3 : ℚ) - 1| / (|(3 : ℚ)| + |(1 : ℚ)|) ∧
    0 ≤ sMAPE 1 3 ∧ sMAPE 1 3 ≤ 200 :=
  sMAPE_zero_and_bounded.2 1 3 (by decide)

/-- **C5.** The percentage error uses the denominator `actual + 1e-8`,
which is strictly positive for every nonnegative actual value, so no
zero division occurs there; `error_percentage 100 110` is `10` within
`10⁻⁶`, and `error_percentage 0 5` is the large but finite rational
`50000000000`. -/
theorem error_percentage_eps_safe_and_values :
    (∀ actual : ℚ, 0 ≤ actual → 0 < actual + 1 / 100000000) ∧
    |error_percentage 100 110 - 10| < 1 / 1000000 ∧
    error_percentage 0 5 = 50000000000 := by
  refine ⟨fun a ha => by linarith, ?_, ?_⟩
  · unfold error_percentage
    norm_num
    rw [abs_of_nonneg (by positivity)]
    norm_num
  · unfold error_percentage
    norm_num

/-- **C5 witness.** The denominator positivity at `actual = 0`, together
with the closed conjuncts. -/
theorem error_percentage_eps_safe_and_values_witness :
    0 < (0 : ℚ) + 1 / 100000000 ∧
    |error_percentage 100 110 - 10| < 1 / 1000000 ∧
    error_percentage 0 5 = 50000000000 :=
  ⟨error_percentage_eps_safe_and_values.1 0 (by norm_num),
   error_percentage_eps_safe_and_values.2.1,
   error_percentage_eps_safe_and_values.2.2⟩

/-- Accumulating per-batch losses by a left fold from an arbitrary start
value adds the list's sum to that value. -/
theorem foldl_add_eq_add_sum (l : List ℚ) :
    ∀ a : ℚ, l.foldl (· + ·) a = a + l.sum := by
  induction l with
  | nil => simp
  | cons x xs ih =>
    intro a
    simp only [List.foldl_cons, List.sum_cons, ih]
    ring

/-- **C3.** On a non-empty batch sequence, `train_epoch` and `validate`
both return exactly the arithmetic mean of the per-batch losses. -/
theorem epoch_loss_is_arithmetic_mean :
    ∀ l : List ℚ, l ≠ [] →
      train_epoch l = some (arithmeticMean l) ∧
      validate l = some (arithmeticMean l) := by
  intro l h
  have hlen : l.length ≠ 0 := by
    simpa using fun hn => h (List.length_eq_zero.mp hn)
  constructor <;>
    simp [train_epoch, validate, arithmeticMean, hlen,
      foldl_add_eq_add_sum]

/-- **C3 witness.** The mean of the two batch losses `2` and `4`. -/
theorem epoch_loss_is_arithmetic_mean_witness :
    train_epoch [2, 4] = some (arithmeticMean [2, 4]) ∧
    validate [2, 4] = some (arithmeticMean [2, 4]) :=
  epoch_loss_is_arithmetic_mean [2, 4] (by decide)

/-- **C9.** With zero batches the loop leaves `num_batches = 0` and the
final `total_loss / num_batches` is Python's `0 / 0`, a raised
`ZeroDivisionError` (`none`), in both `train_epoch` and `validate`. -/
theorem empty_loader_divides_by_zero :
    train_epoch [] = none ∧ validate [] = none :=
  ⟨rfl, rfl⟩

/-- **C6.** `load_model`: for a missing file, no field of the trainer
state changes and the result is `None`; for an existing file, the model
and optimizer parameters are replaced by the checkpoint's and the full
record is returned. -/
theorem load_model_branches :
    ∀ (s : LoopState) (fs : FileSystem) (path : String),
      (fs path = none → load_model s fs path = (s, none)) ∧
      ∀ cp : Checkpoint, fs path = some cp →
        load_model s fs path =
          ({ s with
              model := cp.model_state_dict
              optimizer := cp.optimizer_state_dict }, some cp) := by
  intro s fs path
  constructor
  · intro h
    simp [load_model, h]
  · intro cp h
    simp [load_model, h]

/-- **C6 witness.** Both branches at concrete states: an empty file
system, and one holding a checkpoint at the save path. -/
theorem load_model_branches_witness :
    load_model (initState [3] [4]) (fun _ => none) "best_model.pth" =
      (initState [3] [4], none) ∧
    load_model (initState [3] [4])
        (fun _ => some ⟨7, [1], [2], 5, 6⟩) "best_model.pth" =
      ({ initState [3] [4] with model := [1], optimizer := [2] },
       some ⟨7, [1], [2], 5, 6⟩) :=
  ⟨(load_model_branches (initState [3] [4]) (fun _ => none)
      "best_model.pth").1 rfl,
   (load_model_branches (initState [3] [4])
      (fun _ => some ⟨7, [1], [2], 5, 6⟩) "best_model.pth").2
      ⟨7, [1], [2], 5, 6⟩ rfl⟩

/-- **C10.** `load_model` leaves `best_val_loss`, both loss histories,
the patience counter and the checkpoint log untouched; after
construction-then-load `best_val_loss` is still `⊤` (`float('inf')`);
and the loop body at a state with `best_val_loss = ⊤` always treats the
epoch as an improvement, writing a checkpoint — so a resumed run's first
comparison is against infinity, not the loaded checkpoint's loss. -/
theorem load_model_frame :
    (∀ (s : LoopState) (fs : FileSystem) (path : String),
      (load_model s fs path).1.best_val_loss = s.best_val_loss ∧
      (load_model s fs path).1.train_losses = s.train_losses ∧
      (load_model s fs path).1.val_losses = s.val_losses ∧
      (load_model s fs path).1.patience_counter = s.patience_counter ∧
      (load_model s fs path).1.written = s.written) ∧
    (∀ (m o : List ℚ) (fs : FileSystem) (path : String),
      (load_model (initState m o) fs path).1.best_val_loss = ⊤) ∧
    ∀ (losses : ℕ → ℚ × ℚ) (e : ℕ) (st : LoopState),
      st.best_val_loss = ⊤ →
      (trainStep losses e st).written =
        st.written ++
          [{ epoch := e
             model_state_dict := st.model
             optimizer_state_dict := st.optimizer
             train_loss := (losses e).1
             val_loss := (losses e).2 }] := by
  refine ⟨?_, ?_, ?_⟩
  · intro s fs path
    cases h : fs path <;> simp [load_model, h]
  · intro m o fs path
    cases h : fs path <;> simp [load_model, h, initState]
  · intro losses e st hbest
    have hlt : ((losses e).2 : WithTop ℚ) < st.best_val_loss := by
      rw [hbest]
      exact WithTop.coe_lt_top _
    simp [trainStep, hlt]

/-- **C10 witness.** The frame condition and the forced first write at
concrete states. -/
theorem load_model_frame_witness :
    (load_model (initState [3] [4])
        (fun _ => some ⟨7, [1], [2], 5, 6⟩) "best_model.pth").1.best_val_loss
      = (initState [3] [4]).best_val_loss ∧
    (trainStep (fun _ => (1, 2)) 0 (initState [3] [4])).written =
      (initState [3] [4]).written ++ [⟨0, [3], [4], 1, 2⟩] :=
  ⟨(load_model_frame.1 (initState [3] [4])
      (fun _ => some ⟨7, [1], [2], 5, 6⟩) "best_model.pth").1,
   load_model_frame.2.2 (fun _ => (1, 2)) 0 (initState [3] [4]) rfl⟩

/-- **C7.** When `num_epochs ≤ start_epoch`, `range(start_epoch,
num_epochs)` is empty: `train` runs no epoch, changes nothing and
returns the histories as they were (empty on a fresh trainer). -/
theorem train_no_epochs_when_range_empty :
    ∀ (losses : ℕ → ℚ × ℚ) (num_epochs patience start_epoch : ℕ)
      (s : LoopState),
      num_epochs ≤ start_epoch →
      train losses num_epochs patience start_epoch s =
        (s, s.train_losses, s.val_losses) := by
  intro losses n p s0 s h
  unfold train
  rw [Nat.sub_eq_zero_of_le h]
  rfl

/-- **C7 witness.** A run with `num_epochs = 2 ≤ start_epoch = 5` on a
fresh trainer returns it unchanged with empty histories. -/
theorem train_no_epochs_when_range_empty_witness :
    train (fun _ => (1, 2)) 2 10 5 (initState [] []) =
      (initState [] [], [], []) :=
  train_no_epochs_when_range_empty (fun _ => (1, 2)) 2 10 5
    (initState [] []) (by decide)

/-- **C8.** With an empty train-loss history, `plot_training_history`
takes the early-return branch: a printed warning and no plot file. -/
theorem plot_training_history_empty_warns :
    ∀ s : LoopState, s.train_losses = [] →
      plot_training_history s = PlotOutcome.warnedNoHistory := by
  intro s h
  simp [plot_training_history, h]

/-- **C8 witness.** The warning branch on a fresh trainer. -/
theorem plot_training_history_empty_warns_witness :
    plot_training_history (initState [] []) =
      PlotOutcome.warnedNoHistory :=
  plot_training_history_empty_warns (initState [] []) rfl

/-- Field characterisation: each loop-body iteration appends exactly the
epoch's train loss to the train-loss history. -/
theorem trainStep_train_losses (losses : ℕ → ℚ × ℚ) (e : ℕ)
    (s : LoopState) :
    (trainStep losses e s).train_losses =
      s.train_losses ++ [(losses e).1] := by
  unfold trainStep
  by_cases h : (((losses e).2 : ℚ) : WithTop ℚ) < s.best_val_loss <;>
    simp [h]

/-- Field characterisation: each loop-body iteration appends exactly the
epoch's validation loss to the validation-loss history. -/
theorem trainStep_val_losses (losses : ℕ → ℚ × ℚ) (e : ℕ)
    (s : LoopState) :
    (trainStep losses e s).val_losses =
      s.val_losses ++ [(losses e).2] := by
  unfold trainStep
  by_cases h : (((losses e).2 : ℚ) : WithTop ℚ) < s.best_val_loss <;>
    simp [h]

/-- Field characterisation: the best validation loss after one iteration. -/
theorem trainStep_best_val_loss (losses : ℕ → ℚ × ℚ) (e : ℕ)
    (s : LoopState) :
    (trainStep losses e s).best_val_loss =
      if (((losses e).2 : ℚ) : WithTop ℚ) < s.best_val_loss
      then (((losses e).2 : ℚ) : WithTop ℚ) else s.best_val_loss := by
  unfold trainStep
  by_cases h : (((losses e).2 : ℚ) : WithTop ℚ) < s.best_val_loss <;>
    simp [h]

/-- Field characterisation: the patience counter after one iteration
resets to `0` on strict improvement and increments otherwise. -/
theorem trainStep_patience_counter (losses : ℕ → ℚ × ℚ) (e : ℕ)
    (s : LoopState) :
    (trainStep losses e s).patience_counter =
      if (((losses e).2 : ℚ) : WithTop ℚ) < s.best_val_loss
      then 0 else s.patience_counter + 1 := by
  unfold trainStep
  by_cases h : (((losses e).2 : ℚ) : WithTop ℚ) < s.best_val_loss <;>
    simp [h]

/-- Field characterisation: the checkpoint log after one iteration. -/
theorem trainStep_written (losses : ℕ → ℚ × ℚ) (e : ℕ) (s : LoopState) :
    (trainStep losses e s).written =
      if (((losses e).2 : ℚ) : WithTop ℚ) < s.best_val_loss
      then s.written ++
        [{ epoch := e
           model_state_dict := s.model
           optimizer_state_dict := s.optimizer
           train_loss := (losses e).1
           val_loss := (losses e).2 }]
      else s.written := by
  unfold trainStep
  by_cases h : (((losses e).2 : ℚ) : WithTop ℚ) < s.best_val_loss <;>
    simp [h]

/-- The invariant connecting the checkpoint log and the best-so-far:
the logged validation losses are pairwise strictly decreasing in write
order, and each of them is at least the current best. -/
def SavedInv (s : LoopState) : Prop :=
  (s.written.map Checkpoint.val_loss).Pairwise (fun a b => b < a) ∧
  ∀ c ∈ s.written, s.best_val_loss ≤ (c.val_loss : WithTop ℚ)

/-- One loop-body iteration preserves the checkpoint-log invariant. -/
theorem trainStep_savedInv (losses : ℕ → ℚ × ℚ) (e : ℕ) (s : LoopState)
    (h : SavedInv s) : SavedInv (trainStep losses e s) := by
  obtain ⟨hpw, hle⟩ := h
  by_cases hlt : (((losses e).2 : ℚ) : WithTop ℚ) < s.best_val_loss
  · constructor
    · rw [trainStep_written, if_pos hlt, List.map_append,
        List.pairwise_append]
      refine ⟨hpw, List.pairwise_singleton _ _, ?_⟩
      intro a ha b hb
      simp only [List.map_cons, List.map_nil, List.mem_singleton] at hb
      subst hb
      obtain ⟨c, hc, rfl⟩ := List.mem_map.mp ha
      have h1 : (((losses e).2 : ℚ) : WithTop ℚ) <
          (c.val_loss : WithTop ℚ) := lt_of_lt_of_le hlt (hle c hc)
      exact_mod_cast h1
    · intro c hc
      rw [trainStep_written, if_pos hlt] at hc
      rw [trainStep_best_val_loss, if_pos hlt]
      rcases List.mem_append.mp hc with hold | hnew
      · exact le_of_lt (lt_of_lt_of_le hlt (hle c hold))
      · simp only [List.mem_singleton] at hnew
        subst hnew
        exact le_refl _
  · constructor
    · rw [trainStep_written, if_neg hlt]
      exact hpw
    · intro c hc
      rw [trainStep_written, if_neg hlt] at hc
      rw [trainStep_best_val_loss, if_neg hlt]
      exact hle c hc
/-- The whole `for` loop preserves the checkpoint-log invariant. -/
theorem trainLoop_savedInv (losses : ℕ → ℚ × ℚ) (patience : ℕ) :
    ∀ (es : List ℕ) (s : LoopState),
      SavedInv s → SavedInv (trainLoop losses patience es s)
  | [], s, h => h
  | e :: es, s, h => by
    rw [trainLoop]
    by_cases hb : patience ≤ (trainStep losses e s).patience_counter
    · rw [if_pos hb]
      exact trainStep_savedInv losses e s h
    · rw [if_neg hb]
      exact trainLoop_savedInv losses patience es
        (trainStep losses e s) (trainStep_savedInv losses e s h)

/-- **C1.** In every run of `train` from a fresh trainer, the
validation losses of the written checkpoints, in write order, form a
strictly decreasing sequence; and a single loop iteration writes a
checkpoint exactly when its validation loss is strictly below the
current best (initially `float('inf')`). -/
theorem checkpoint_written_iff_improves_and_monotone :
    ∀ (losses : ℕ → ℚ × ℚ) (num_epochs patience start_epoch : ℕ)
      (m o : List ℚ),
      List.Chain' (fun a b => b < a)
        (((train losses num_epochs patience start_epoch
            (initState m o)).1.written).map Checkpoint.val_loss) ∧
      ∀ (s : LoopState) (e : ℕ),
        (trainStep losses e s).written ≠ s.written ↔
          (((losses e).2 : ℚ) : WithTop ℚ) < s.best_val_loss := by
  intro losses n p s0 m o
  constructor
  · have hinv : SavedInv (initState m o) := by
      refine ⟨List.Pairwise.nil, ?_⟩
      intro c hc
      simp [initState] at hc
    have h := trainLoop_savedInv losses p
      (List.range' s0 (n - s0)) (initState m o) hinv
    exact h.1.chain'
  · intro s e
    constructor
    · intro hne
      by_contra hlt
      exact hne (by rw [trainStep_written, if_neg hlt])
    · intro hlt heq
      rw [trainStep_written, if_pos hlt] at heq
      have := congrArg List.length heq
      simp at this

/-- The spec's epoch count never exceeds the length of the supplied
validation-loss sequence. -/
theorem specEpochsRun_le_length (patience : ℕ) :
    ∀ (vs : List ℚ) (best : WithTop ℚ) (counter : ℕ),
      specEpochsRun patience vs best counter ≤ vs.length
  | [], _, _ => Nat.le_refl 0
  | v :: vs, best, counter => by
    rw [specEpochsRun]
    by_cases h : patience ≤
        (if (v : WithTop ℚ) < best then 0 else counter + 1)
    · simp only [h, if_true]
      exact Nat.succ_le_succ (Nat.zero_le _)
    · simp only [h, if_false, List.length_cons]
      have := specEpochsRun_le_length patience vs
        (if (v : WithTop ℚ) < best then (v : WithTop ℚ) else best)
        (if (v : WithTop ℚ) < best then 0 else counter + 1)
      omega

/-- The loop consumes exactly as many epochs as the spec's early-stopped
state machine prescribes: the history lengths grow by
`specEpochsRun` of the upcoming validation losses. -/
theorem trainLoop_history_lengths (losses : ℕ → ℚ × ℚ) (patience : ℕ) :
    ∀ (es : List ℕ) (s : LoopState),
      (trainLoop losses patience es s).train_losses.length =
        s.train_losses.length +
          specEpochsRun patience (es.map fun e => (losses e).2)
            s.best_val_loss s.patience_counter ∧
      (trainLoop losses patience es s).val_losses.length =
        s.val_losses.length +
          specEpochsRun patience (es.map fun e => (losses e).2)
            s.best_val_loss s.patience_counter
  | [], s => by simp [trainLoop, specEpochsRun]
  | e :: es, s => by
    rw [trainLoop, List.map_cons, specEpochsRun]
    simp only [trainStep_patience_counter]
    by_cases h : patience ≤
        (if (((losses e).2 : ℚ) : WithTop ℚ) < s.best_val_loss
         then 0 else s.patience_counter + 1)
    · rw [if_pos h, if_pos h]
      constructor
      · rw [trainStep_train_losses]
        simp [Nat.add_comm]
      · rw [trainStep_val_losses]
        simp [Nat.add_comm]
    · rw [if_neg h, if_neg h]
      obtain ⟨iht, ihv⟩ :=
        trainLoop_history_lengths losses patience es (trainStep losses e s)
      rw [iht, ihv, trainStep_train_losses, trainStep_val_losses,
        trainStep_best_val_loss, trainStep_patience_counter]
      by_cases hlt : (((losses e).2 : ℚ) : WithTop ℚ) < s.best_val_loss <;>
        simp [hlt, List.length_append] <;> omega

/-- **C2.** On a fresh trainer, the returned train- and validation-loss
histories both have length exactly the number of epochs the spec's
early-stopping state machine runs on the epochs' validation losses
(counter reset on strict improvement, incremented otherwise, immediate
exit once it reaches the patience), and that number never exceeds
`num_epochs - start_epoch`. -/
theorem train_early_stopping_history_lengths :
    ∀ (losses : ℕ → ℚ × ℚ) (num_epochs patience start_epoch : ℕ)
      (m o : List ℚ),
      (train losses num_epochs patience start_epoch
          (initState m o)).2.1.length =
        specEpochsRun patience
          ((List.range' start_epoch (num_epochs - start_epoch)).map
            fun e => (losses e).2) ⊤ 0 ∧
      (train losses num_epochs patience start_epoch
          (initState m o)).2.2.length =
        specEpochsRun patience
          ((List.range' start_epoch (num_epochs - start_epoch)).map
            fun e => (losses e).2) ⊤ 0 ∧
      specEpochsRun patience
          ((List.range' start_epoch (num_epochs - start_epoch)).map
            fun e => (losses e).2) ⊤ 0 ≤
        num_epochs - start_epoch := by
  intro losses n p s0 m o
  obtain ⟨ht, hv⟩ := trainLoop_history_lengths losses p
    (List.range' s0 (n - s0)) (initState m o)
  refine ⟨?_, ?_, ?_⟩
  · simpa [train, initState] using ht
  · simpa [train, initState] using hv
  · have := specEpochsRun_le_length p
      ((List.range' s0 (n - s0)).map fun e => (losses e).2) ⊤ 0
    simpa using this
